import Mathlib

/-!
Shallow embedding of the og-sdk resource model
(src/Libs/Resources/OgResource.js and src/Libs/Http/OgApi.js).

Modelling conventions:
* Attribute paths are the single-segment identifiers observed in the
  source and spec (no dots), so the lodash get and Object.keys of a JS
  object are modelled by first-match association-list lookup, and
  lodash set and JS property assignment by an in-place upsert that
  keeps first-occurrence order and appends new keys.
* JS numbers produced by parseInt are modelled as exact integers, and
  those produced by parseFloat as exact rationals; the SDK only ever
  compares them for truthiness and serializes them.
* A JS class extending OgResource is identified with the cast map its
  constructor passes to define, which is how the owning subtype fixes
  the shape at construction time (spec section 3); subtype sources are
  not part of the repository snapshot.
-/

/-- An api or config value reached through repeated `.config` accesses.
Object identity is modelled by the numeric id; `undef` is the JS
undefined reached when the chain runs out (an OgConfig instance has no
`config` property of its own). -/
inductive ApiVal where
  | undef : ApiVal
  | obj (id : Nat) (config : ApiVal) : ApiVal
deriving DecidableEq

/-- JS property access `x.config`, as used by `super(api.config)` and
`getCastValue(this.$api.config, ...)`. -/
def ApiVal.getConfig : ApiVal → ApiVal
  | ApiVal.undef => ApiVal.undef
  | ApiVal.obj _ c => c

/-- A cast type descriptor: either one of the primitive type strings
dispatched by the switch in getCastValue (a string not named there hits
the default passthrough branch), or a class extending OgResource,
identified with the cast map its constructor defines. -/
inductive CastType where
  | prim (s : String) : CastType
  | res (defs : List (String × CastType)) : CastType

/-- The four status flags of OgResource.$status. -/
structure StatusFlags where
  creating : Bool
  updating : Bool
  fetching : Bool
  deleting : Bool
deriving DecidableEq

mutual
/-- Size of a cast type, used as the termination measure for the
mutually recursive casting and schema functions. -/
def msType : CastType → Nat
  | CastType.prim _ => 1
  | CastType.res defs => 1 + msList defs

/-- Size of a cast map. -/
def msList : List (String × CastType) → Nat
  | [] => 0
  | (_, t) :: rest => 1 + msType t + msList rest
end

/-- First-match association list lookup: JS property read `obj[key]`
(and the lodash get of a single-segment path). -/
def alookup {α : Type} (key : String) : List (String × α) → Option α
  | [] => none
  | kv :: rest => if kv.fst = key then some kv.snd else alookup key rest

/-- JS property assignment `obj[key] = v` (and the lodash set of a
single-segment path): replaces in place keeping position, appends new
keys at the end. -/
def jsUpsert {α : Type} (l : List (String × α)) (key : String) (v : α) : List (String × α) :=
  match l with
  | [] => [(key, v)]
  | kv :: rest =>
    if kv.fst = key then (key, v) :: rest else kv :: jsUpsert rest key v

/-- The cast map a freshly constructed JS object accumulates when each
pair of `defs` is assigned in order (define iterates Object.keys). -/
def upsertList (defs : List (String × CastType)) : List (String × CastType) :=
  defs.foldl (fun acc pt => jsUpsert acc pt.fst pt.snd) []

theorem alookup_msType_le {key : String} {t : CastType} :
    ∀ {l : List (String × CastType)}, alookup key l = some t → msType t + 1 ≤ msList l := by
  intro l
  induction l with
  | nil => intro h; simp [alookup] at h
  | cons kv rest ih =>
    intro h
    rw [alookup] at h
    by_cases hk : kv.fst = key
    · simp [hk] at h
      cases kv with
      | mk k v =>
        simp at h
        subst h
        simp [msList]
        omega
    · simp [hk] at h
      have := ih h
      cases kv with
      | mk k v => simp [msList]; omega

theorem msList_jsUpsert_le (key : String) (t : CastType) :
    ∀ (l : List (String × CastType)), msList (jsUpsert l key t) ≤ msList l + (1 + msType t) := by
  intro l
  induction l with
  | nil => simp [jsUpsert, msList]
  | cons kv rest ih =>
    rw [jsUpsert]
    by_cases hk : kv.fst = key
    · simp [hk]
      cases kv with
      | mk k v => simp [msList]; omega
    · simp [hk]
      cases kv with
      | mk k v => simp [msList] at *; omega

theorem msList_foldl_upsert_le :
    ∀ (defs acc : List (String × CastType)),
      msList (defs.foldl (fun a pt => jsUpsert a pt.fst pt.snd) acc) ≤ msList acc + msList defs := by
  intro defs
  induction defs with
  | nil => intro acc; simp [msList]
  | cons pt rest ih =>
    intro acc
    rw [List.foldl_cons]
    have h1 := ih (jsUpsert acc pt.fst pt.snd)
    have h2 := msList_jsUpsert_le pt.fst pt.snd acc
    cases pt with
    | mk p t => simp [msList] at *; omega

theorem msList_upsertList_le (defs : List (String × CastType)) :
    msList (upsertList defs) ≤ msList defs := by
  have := msList_foldl_upsert_le defs []
  simpa [upsertList, msList] using this

mutual
/-- A JS runtime value as it flows through the resource model:
null, undefined, booleans, strings, parseInt integers, parseFloat
rationals, plain objects (as ordered key-value lists) and live
OgResource instances. -/
inductive Value where
  | vnull : Value
  | vundefined : Value
  | vbool (b : Bool) : Value
  | vstr (s : String) : Value
  | vint (n : Int) : Value
  | vdec (q : Rat) : Value
  | vobj (fields : List (String × Value)) : Value
  | vres (r : Res) : Value

/-- The $response slot of a resource. After construction it holds an
OgResponse wrapper; save reassigns it to the raw return value of
OgApi.post. The wrapper fields are modelled from the spec: the Response
Wrapper exposes failed, message and status derived from the last
transport result (OgResponse.js is not part of the repository
snapshot). -/
inductive RespSlot where
  | wrapper (failed : Bool) (message : String) (status : Int) : RespSlot
  | raw (v : Value) : RespSlot

/-- The state of one OgResource instance: $api, $path, $casts,
$fillable, $attributes, $status and $response. The informational
$primaryKey field (set to "id" and never read in the source) and the
OgQueryBuilder superclass state (not in the repository snapshot, and
untouched by the resource operations) are omitted. -/
inductive Res where
  | mk (api : ApiVal) (path : String) (casts : List (String × CastType))
       (fillable : List String) (attributes : List (String × Value))
       (status : StatusFlags) (response : RespSlot) : Res
end

def Res.api : Res → ApiVal
  | Res.mk a _ _ _ _ _ _ => a

def Res.path : Res → String
  | Res.mk _ p _ _ _ _ _ => p

def Res.casts : Res → List (String × CastType)
  | Res.mk _ _ c _ _ _ _ => c

def Res.fillable : Res → List String
  | Res.mk _ _ _ f _ _ _ => f

def Res.attributes : Res → List (String × Value)
  | Res.mk _ _ _ _ a _ _ => a

def Res.status : Res → StatusFlags
  | Res.mk _ _ _ _ _ s _ => s

def Res.response : Res → RespSlot
  | Res.mk _ _ _ _ _ _ r => r

def withCasts (r : Res) (c : List (String × CastType)) : Res :=
  Res.mk r.api r.path c r.fillable r.attributes r.status r.response

def withFillable (r : Res) (f : List String) : Res :=
  Res.mk r.api r.path r.casts f r.attributes r.status r.response

def withAttributes (r : Res) (a : List (String × Value)) : Res :=
  Res.mk r.api r.path r.casts r.fillable a r.status r.response

def withStatus (r : Res) (s : StatusFlags) : Res :=
  Res.mk r.api r.path r.casts r.fillable r.attributes s r.response

def withResponse (r : Res) (rs : RespSlot) : Res :=
  Res.mk r.api r.path r.casts r.fillable r.attributes r.status rs

@[simp] theorem withAttributes_api (r : Res) (a : List (String × Value)) :
    (withAttributes r a).api = r.api := by
  cases r; rfl

@[simp] theorem withAttributes_path (r : Res) (a : List (String × Value)) :
    (withAttributes r a).path = r.path := by
  cases r; rfl

@[simp] theorem withAttributes_casts (r : Res) (a : List (String × Value)) :
    (withAttributes r a).casts = r.casts := by
  cases r; rfl

@[simp] theorem withAttributes_fillable (r : Res) (a : List (String × Value)) :
    (withAttributes r a).fillable = r.fillable := by
  cases r; rfl

@[simp] theorem withAttributes_attributes (r : Res) (a : List (String × Value)) :
    (withAttributes r a).attributes = a := by
  cases r; rfl

@[simp] theorem withAttributes_status (r : Res) (a : List (String × Value)) :
    (withAttributes r a).status = r.status := by
  cases r; rfl

@[simp] theorem withAttributes_response (r : Res) (a : List (String × Value)) :
    (withAttributes r a).response = r.response := by
  cases r; rfl

@[simp] theorem withStatus_api (r : Res) (s : StatusFlags) : (withStatus r s).api = r.api := by
  cases r; rfl

@[simp] theorem withStatus_path (r : Res) (s : StatusFlags) : (withStatus r s).path = r.path := by
  cases r; rfl

@[simp] theorem withStatus_casts (r : Res) (s : StatusFlags) : (withStatus r s).casts = r.casts := by
  cases r; rfl

@[simp] theorem withStatus_fillable (r : Res) (s : StatusFlags) :
    (withStatus r s).fillable = r.fillable := by
  cases r; rfl

@[simp] theorem withStatus_attributes (r : Res) (s : StatusFlags) :
    (withStatus r s).attributes = r.attributes := by
  cases r; rfl

@[simp] theorem withStatus_status (r : Res) (s : StatusFlags) : (withStatus r s).status = s := by
  cases r; rfl

@[simp] theorem withStatus_response (r : Res) (s : StatusFlags) :
    (withStatus r s).response = r.response := by
  cases r; rfl

@[simp] theorem withResponse_api (r : Res) (rs : RespSlot) : (withResponse r rs).api = r.api := by
  cases r; rfl

@[simp] theorem withResponse_path (r : Res) (rs : RespSlot) : (withResponse r rs).path = r.path := by
  cases r; rfl

@[simp] theorem withResponse_casts (r : Res) (rs : RespSlot) :
    (withResponse r rs).casts = r.casts := by
  cases r; rfl

@[simp] theorem withResponse_fillable (r : Res) (rs : RespSlot) :
    (withResponse r rs).fillable = r.fillable := by
  cases r; rfl

@[simp] theorem withResponse_attributes (r : Res) (rs : RespSlot) :
    (withResponse r rs).attributes = r.attributes := by
  cases r; rfl

@[simp] theorem withResponse_status (r : Res) (rs : RespSlot) :
    (withResponse r rs).status = r.status := by
  cases r; rfl

@[simp] theorem withResponse_response (r : Res) (rs : RespSlot) :
    (withResponse r rs).response = rs := by
  cases r; rfl

/-- JS truthiness, the test behind `value ?`, `if (!value)` and
`if (!casts[key])`. Empty objects and resource instances are truthy. -/
def jsTruthy : Value → Bool
  | Value.vnull => false
  | Value.vundefined => false
  | Value.vbool b => b
  | Value.vstr s => decide (s ≠ "")
  | Value.vint n => decide (n ≠ 0)
  | Value.vdec q => decide (q ≠ 0)
  | Value.vobj _ => true
  | Value.vres _ => true

/-- Decimal digits of the fractional part num/den, by long division;
the fuel bounds the emitted digits. Every rational this model feeds in
comes from parseFloat and has a terminating decimal expansion, which
the fuel of 64 always exhausts. -/
def fracDigitsStr : Nat → Nat → Nat → String
  | _, _, 0 => ""
  | num, den, fuel + 1 =>
    if num = 0 then ""
    else toString (num * 10 / den) ++ fracDigitsStr (num * 10 % den) den fuel

/-- JS ToString of a (finite, decimal) number. -/
def ratToString (q : Rat) : String :=
  let sgn := if q < 0 then "-" else ""
  let n := q.num.natAbs
  let d := q.den
  if n % d = 0 then sgn ++ toString (n / d)
  else sgn ++ toString (n / d) ++ "." ++ fracDigitsStr (n % d) d 64

/-- JS ToString, as applied by `String(value)` and by parseInt and
parseFloat to a non-string argument. -/
def jsToString : Value → String
  | Value.vnull => "null"
  | Value.vundefined => "undefined"
  | Value.vbool true => "true"
  | Value.vbool false => "false"
  | Value.vstr s => s
  | Value.vint n => toString n
  | Value.vdec q => ratToString q
  | Value.vobj _ => "[object Object]"
  | Value.vres _ => "[object Object]"

/-- Leading-whitespace skip of parseInt and parseFloat. -/
def dropWs : List Char → List Char
  | [] => []
  | c :: rest =>
    if c = ' ' ∨ c = '\t' ∨ c = '\n' ∨ c = '\r' then dropWs rest else c :: rest

/-- Splits a character list into its longest leading run of decimal
digits and the remainder. -/
def splitDigits : List Char → List Char × List Char
  | [] => ([], [])
  | c :: rest =>
    if c.isDigit then
      let p := splitDigits rest
      (c :: p.fst, p.snd)
    else ([], c :: rest)

/-- Base-10 value of a digit run. -/
def digitsToNat : Nat → List Char → Nat
  | acc, [] => acc
  | acc, c :: rest => digitsToNat (acc * 10 + (c.toNat - 48)) rest

/-- Unsigned part of parseInt: the longest leading digit run, NaN
(none) when there is none. -/
def parseNatDigits (cs : List Char) : Option Nat :=
  let p := splitDigits cs
  if p.fst = [] then none else some (digitsToNat 0 p.fst)

/-- parseInt(s, 10) on a string already stripped of leading
whitespace: optional sign, then the longest leading digit run; NaN
(none) when no digit follows. -/
def parseIntFrom : List Char → Option Int
  | '-' :: rest => (parseNatDigits rest).map (fun n => -(n : Int))
  | '+' :: rest => (parseNatDigits rest).map (fun n => (n : Int))
  | cs => (parseNatDigits cs).map (fun n => (n : Int))

/-- parseInt(value, 10): ToString the argument, skip leading
whitespace, parse sign and leading digits; none models NaN. -/
def jsParseInt (v : Value) : Option Int :=
  parseIntFrom (dropWs (jsToString v).toList)

/-- Unsigned part of parseFloat: digits, optionally a dot and more
digits; NaN (none) when neither side of the dot has a digit. Exponent
notation is not modelled (never exercised by this SDK). -/
def parseDecDigits (cs : List Char) : Option Rat :=
  let p := splitDigits cs
  match p.snd with
  | '.' :: rest2 =>
    let f := splitDigits rest2
    if p.fst = [] ∧ f.fst = [] then none
    else some ((digitsToNat 0 p.fst : Rat) +
               (digitsToNat 0 f.fst : Rat) / ((10 : Rat) ^ f.fst.length))
  | _ => if p.fst = [] then none else some ((digitsToNat 0 p.fst : Rat))

/-- parseFloat on a whitespace-stripped string: optional sign then
decimal digits. -/
def parseFloatFrom : List Char → Option Rat
  | '-' :: rest => (parseDecDigits rest).map (fun q => -q)
  | '+' :: rest => parseDecDigits rest
  | cs => parseDecDigits cs

/-- parseFloat(value): ToString the argument, skip leading whitespace,
parse a decimal literal; none models NaN. -/
def jsParseFloat (v : Value) : Option Rat :=
  parseFloatFrom (dropWs (jsToString v).toList)

/-- The switch of getCastValue over the primitive type strings
(boolean, string, integer, decimal; every other string is the default
passthrough branch). -/
def castPrim (s : String) (value : Value) : Value :=
  if s = "boolean" then Value.vbool (jsTruthy value)
  else if s = "string" then
    (if jsTruthy value then Value.vstr (jsToString value) else Value.vstr "")
  else if s = "integer" then Value.vint ((jsParseInt value).getD 0)
  else if s = "decimal" then Value.vdec ((jsParseFloat value).getD 0)
  else value

/-- Truthiness of a cast type descriptor, for `if (!casts[key])`:
a class reference is always truthy, a string type is falsy only when
empty. -/
def castTFalsy : CastType → Bool
  | CastType.prim s => decide (s = "")
  | CastType.res _ => false

/-- lodash get(l, path, dflt) on a flat object: the default is
returned when the key is absent or its value is undefined. -/
def lodashGet (l : List (String × Value)) (path : String) (dflt : Value) : Value :=
  match alookup path l with
  | none => dflt
  | some Value.vundefined => dflt
  | some v => v

/-- lodash get(source, path, null) where the source is an arbitrary
value, as in fill: non-object sources yield the null default for the
identifier paths this SDK uses. -/
def sourceGet (src : Value) (path : String) : Value :=
  match src with
  | Value.vobj fields => lodashGet fields path Value.vnull
  | _ => Value.vnull

/-- JS property access `v.name` on an arbitrary value: undefined
unless the value is an object carrying the key. -/
def jsProp (v : Value) (name : String) : Value :=
  match v with
  | Value.vobj fields =>
    (match alookup name fields with
     | some x => x
     | none => Value.vundefined)
  | _ => Value.vundefined

/-- Property access on whatever the $response slot holds: a wrapper
answers failed, message and status (modelled from the spec, OgResponse
not being in the snapshot); a raw payload answers as a plain value. -/
def respProp (rs : RespSlot) (name : String) : Value :=
  match rs with
  | RespSlot.wrapper f m s =>
    if name = "failed" then Value.vbool f
    else if name = "message" then Value.vstr m
    else if name = "status" then Value.vint s
    else Value.vundefined
  | RespSlot.raw v => jsProp v name

/-- The freshly constructed Response Wrapper (new OgResponse(config)),
and also its state after clear(). Modelled from the spec: clear resets
the wrapper, discarding the prior failed, message and status. -/
def freshWrapper : RespSlot := RespSlot.wrapper false "" 0

/-- `this.$response.clear()`: a wrapper resets; a raw payload (as left
behind by save) has no clear method, so the call raises a TypeError,
modelled as none. -/
def clearOp : RespSlot → Option RespSlot
  | RespSlot.wrapper _ _ _ => some freshWrapper
  | RespSlot.raw _ => none

/-- The outcome of the one fetch a save issues: the fields of the
normalized Transport result OgApi.request builds from the HTTP
response. -/
structure FetchOutcome where
  ok : Bool
  status : Int
  statusText : String
  json : Value

/-- Return value of OgApi.post (src/Libs/Http/OgApi.js line 68): it
runs request, which stores the normalized result in the api response,
and then returns only `this.$response.data` — the payload, not the
wrapper. On failure request sets data to the empty object; on a 204 it
also stays empty. -/
def postReturn (o : FetchOutcome) : Value :=
  if o.ok then (if o.status = 204 then Value.vobj [] else o.json)
  else Value.vobj []

/-- The loop of the SCHEMA getter (OgResource.js lines 261 to 271):
for every cast path, store the casting engine output for a null input,
then, when that output is a nested OgResource instance, replace it by
the child schema. The per-branch values are exactly those of
getCastValue at null (proved in getCastValue_schema_agree below); the
instanceof OgResource test is resolved by the cast-type case, the only
source of resource-valued outputs. A child constructed by
`new type(config, null)` carries the parent config as its api argument
and accumulates the class cast map, so its schema recursion runs on
`config.getConfig` and `upsertList defs`. -/
def schemaFold (config : ApiVal) (casts : List (String × CastType))
    (items : List (String × CastType)) (sch : List (String × Value)) :
    List (String × Value) :=
  match items with
  | [] => sch
  | (p, _) :: rest =>
    match h : alookup p casts with
    | some (CastType.res defs) =>
      schemaFold config casts rest
        (jsUpsert sch p
          (Value.vobj (schemaFold (ApiVal.getConfig config) (upsertList defs)
            (upsertList defs) [])))
    | some (CastType.prim s) =>
      schemaFold config casts rest
        (jsUpsert sch p (if s = "" then Value.vnull else castPrim s Value.vnull))
    | none => schemaFold config casts rest (jsUpsert sch p Value.vnull)
termination_by (msList casts, items.length)
decreasing_by
  · apply Prod.Lex.left
    have h1 := alookup_msType_le h
    have h2 := msList_upsertList_le defs
    simp [msType] at h1
    omega
  · apply Prod.Lex.right
    simp
  · apply Prod.Lex.right
    simp
  · apply Prod.Lex.right
    simp

/-- The SCHEMA of a cast map, relative to the config object the owning
resource passes to the casting engine. -/
def schemaOfCasts (config : ApiVal) (casts : List (String × CastType)) :
    List (String × Value) :=
  schemaFold config casts casts []

/-- The SCHEMA getter of a resource: derived from $casts alone, using
`this.$api.config` for nested construction. -/
def SCHEMA (r : Res) : List (String × Value) :=
  schemaOfCasts (ApiVal.getConfig r.api) r.casts

/-- OgResource.get (lines 188 to 195): read the attribute; when the
result is falsy, fall back to the same path in SCHEMA with the given
default as ultimate fallback. -/
def OgGet (r : Res) (path : String) (defaultValue : Value) : Value :=
  let value := lodashGet r.attributes path defaultValue
  if ¬ jsTruthy value then lodashGet (SCHEMA r) path defaultValue
  else value

/-- OgResource.toJSON (lines 212 to 219): an output carrying, for
every path of $casts, the value of get(path) (null default). -/
def toJSON (r : Res) : List (String × Value) :=
  r.casts.foldl (fun out pt => jsUpsert out pt.fst (OgGet r pt.fst Value.vnull)) []

/-- OgResource.fillable (lines 154 to 157): push the path onto the
writable set. -/
def OgFillable (r : Res) (path : String) : Res :=
  withFillable r (r.fillable ++ [path])

/-- OgResource.cast (lines 141 to 145): record the type descriptor and
mark the path fillable. -/
def OgCast (r : Res) (path : String) (type : CastType) : Res :=
  OgFillable (withCasts r (jsUpsert r.casts path type)) path

/-- OgResource.define (lines 122 to 128): register every pair through
cast, then re-snapshot $attributes from toJSON. The defs list models a
JS object literal, so its keys are pairwise distinct and iterating its
entries coincides with iterating Object.keys. -/
def OgDefine (r : Res) (defs : List (String × CastType)) : Res :=
  let r1 := defs.foldl (fun acc pt => OgCast acc pt.fst pt.snd) r
  withAttributes r1 (toJSON r1)

/-- OgResource.filled (lines 208 to 210): strict `!== null` on the
lodash read with null default (so a stored undefined, which lodash
replaces by the default, also counts as not filled). -/
def OgFilled (r : Res) (path : String) : Bool :=
  match lodashGet r.attributes path Value.vnull with
  | Value.vnull => false
  | _ => true

/-- OgResource.reset (lines 89 to 91): re-snapshot $attributes to
toJSON(). -/
def OgReset (r : Res) : Res :=
  withAttributes r (toJSON r)

/-- OgResource._statusReset (lines 81 to 87): all four flags false. -/
def statusReset (r : Res) : Res :=
  withStatus r (StatusFlags.mk false false false false)

mutual
/-- getCastValue (OgResource.js lines 6 to 38): passthrough when no
truthy cast is declared; a class type constructs `new type(config,
value)` — the config object reaching the child constructor in the
position where it expects the api; a primitive type string runs the
coercion switch. Classes extending OgResourceCast are not part of the
snapshot and not modelled. -/
def getCastValue (config : ApiVal) (key : String)
    (casts : List (String × CastType)) (value : Value) : Value :=
  match h : alookup key casts with
  | none => value
  | some t =>
    if castTFalsy t then value
    else
      match t with
      | CastType.res defs =>
        Value.vres (OgDefine (constructBase config value "") defs)
      | CastType.prim s => castPrim s value
termination_by (msList casts, 0, 0)
decreasing_by
  apply Prod.Lex.left
  have h1 := alookup_msType_le h
  simp [msType] at h1
  omega

/-- The OgResource constructor body (lines 51 to 67) run by every
instance before any subtype code: store the collaborator in $api,
create the response wrapper, start with empty fillable, casts and
attributes, default the path, then fill(attributes) — which iterates
the still-empty $fillable. A subtype then applies define, modelled by
OgDefine (see constructResource). The OgQueryBuilder super call and
$primaryKey are state outside this model. -/
def constructBase (api : ApiVal) (attributes : Value) (path : String) : Res :=
  let r0 := Res.mk api (if path = "" then "/" else path) [] [] []
    (StatusFlags.mk false false false false) freshWrapper
  fillGo attributes r0 r0.fillable
termination_by (1, 3, 0)
decreasing_by
  apply Prod.Lex.left
  simp [Res.casts, msList]

/-- The forEach of OgResource.fill (lines 165 to 174) over the
fillable paths: look the path up in the source, skip falsy values,
otherwise this.set(path, value) — the set body is inlined here so the
recursion is visible to the termination checker; OgSet_inline below
proves the inlining exact. -/
def fillGo (src : Value) (r : Res) (paths : List String) : Res :=
  match paths with
  | [] => r
  | p :: rest =>
    let value := sourceGet src p
    if ¬ jsTruthy value then fillGo src r rest
    else if r.fillable.contains p then
      fillGo src
        (withAttributes r
          (jsUpsert r.attributes p
            (getCastValue (ApiVal.getConfig r.api) p r.casts value)))
        rest
    else fillGo src r rest
termination_by (msList r.casts, 2, paths.length)
decreasing_by
  · apply Prod.Lex.right
    apply Prod.Lex.right
    simp
  · apply Prod.Lex.right
    apply Prod.Lex.left
    simp
  · apply Prod.Lex.right
    apply Prod.Lex.right
    simp

/-- OgResource.set (lines 176 to 186): silently rejected unless the
path is fillable, otherwise store the casting engine output. -/
def OgSet (r : Res) (path : String) (value : Value) : Res :=
  if r.fillable.contains path then
    withAttributes r
      (jsUpsert r.attributes path
        (getCastValue (ApiVal.getConfig r.api) path r.casts value))
  else r
end

/-- OgResource.fill (lines 165 to 174): iterate the fillable paths
over the source. -/
def OgFill (r : Res) (attributes : Value) : Res :=
  fillGo attributes r r.fillable

/-- Modelled from the spec: a subtype of OgResource is constructed by
running the base constructor and then fixing the shape with
define(defs) — the shape is fixed at construction or definition time by
the owning subtype (spec section 3); the subtype sources are not part
of the repository snapshot. The base class itself is constructResource
with an empty defs list (define of an empty map re-snapshots empty
attributes to the empty toJSON). -/
def constructResource (defs : List (String × CastType)) (api : ApiVal)
    (attributes : Value) (path : String) : Res :=
  OgDefine (constructBase api attributes path) defs

/-- Result of an operation that can throw: the carried state is the
resource state at normal or exceptional exit. -/
inductive OpOutcome where
  | ok (st : Res) : OpOutcome
  | thrown (msg : String) (st : Res) : OpOutcome

def OpOutcome.state : OpOutcome → Res
  | OpOutcome.ok s => s
  | OpOutcome.thrown _ s => s

def OpOutcome.completedNormally : OpOutcome → Bool
  | OpOutcome.ok _ => true
  | OpOutcome.thrown _ _ => false

def setCreating (s : StatusFlags) (b : Bool) : StatusFlags :=
  StatusFlags.mk b s.updating s.fetching s.deleting

/-- The message of `new Error(m)`: an undefined argument leaves an
empty message, any other value is stringified. -/
def errMessage (v : Value) : String :=
  match v with
  | Value.vundefined => ""
  | v => jsToString v

/-- The call `this.$api.abort()` (OgResource.js lines 94 and 101).
Every api value of this repository lacks an abort method: OgApi
(src/Libs/Http/OgApi.js) declares header, request, post, get, url and
config only; a nested child holds the parent config object in its api
slot, and the Config Store boundary (spec section 6) has get, set and
fill only; an undefined slot would throw on the property access
itself. The call therefore always raises a TypeError, modelled as
none. -/
def apiAbort (_ : ApiVal) : Option Unit := none

/-- The message of the TypeError raised by `this.$api.abort()`. -/
def apiAbortError : String := "TypeError: this.$api.abort is not a function"

/-- OgResource.save (lines 100 to 113), with the awaited transport
fetch outcome passed in explicitly. The first step, this.$api.abort(),
throws a TypeError with the api objects of this repository (see
apiAbort), so save exits there with the state untouched. The some
branch models the continuation of the source body, unreachable with
the snapshot's transport: _statusReset, $response.clear() (a TypeError
when the slot holds a raw payload from an earlier save), creating =
true, then `this.$response = await this.$api.post(...)`: the slot then
holds the raw return of post, which is the payload data, not a
response wrapper, and the subsequent failed, message and data reads
are property accesses on that raw value. -/
def OgSave (r : Res) (o : FetchOutcome) : OpOutcome :=
  match apiAbort r.api with
  | none => OpOutcome.thrown apiAbortError r
  | some _ =>
    let r1 := statusReset r
    match clearOp r1.response with
    | none => OpOutcome.thrown "TypeError" r1
    | some cleared =>
      let r2 := withResponse r1 cleared
      let r3 := withStatus r2 (setCreating r2.status true)
      let r4 := withResponse r3 (RespSlot.raw (postReturn o))
      if jsTruthy (respProp r4.response "failed") then
        OpOutcome.thrown (errMessage (respProp r4.response "message")) (statusReset r4)
      else
        let r5 := OgFill r4 (respProp r4.response "data")
        OpOutcome.ok (withStatus r5 (setCreating r5.status false))

/-- OgResource.abort (lines 93 to 98): this.$api.abort() first, which
throws a TypeError with the api objects of this repository (see
apiAbort), so abort exits with the state untouched; the some branch
models the continuation of the source body, unreachable with the
snapshot's transport: _statusReset, $response.clear() (TypeError on a
raw slot), then reset(). -/
def OgAbort (r : Res) : OpOutcome :=
  match apiAbort r.api with
  | none => OpOutcome.thrown apiAbortError r
  | some _ =>
    let r1 := statusReset r
    match clearOp r1.response with
    | none => OpOutcome.thrown "TypeError" r1
    | some cleared => OpOutcome.ok (OgReset (withResponse r1 cleared))

/-- The operations a caller can run on a resource. -/
inductive Op where
  | define (defs : List (String × CastType)) : Op
  | cast (p : String) (t : CastType) : Op
  | fillable (p : String) : Op
  | fill (src : Value) : Op
  | set (p : String) (v : Value) : Op
  | save (o : FetchOutcome) : Op
  | abort : Op
  | reset : Op

/-- One operation step; for save and abort the state at exit, normal
or exceptional. -/
def applyOp (r : Res) : Op → Res
  | Op.define defs => OgDefine r defs
  | Op.cast p t => OgCast r p t
  | Op.fillable p => OgFillable r p
  | Op.fill src => OgFill r src
  | Op.set p v => OgSet r p v
  | Op.save o => OpOutcome.state (OgSave r o)
  | Op.abort => OpOutcome.state (OgAbort r)
  | Op.reset => OgReset r

def runOps (r : Res) (ops : List Op) : Res :=
  ops.foldl applyOp r

theorem fillGo_nil (src : Value) (r : Res) : fillGo src r [] = r := by
  rw [fillGo]

theorem OgSet_eq (r : Res) (p : String) (v : Value) :
    OgSet r p v =
      if r.fillable.contains p then
        withAttributes r
          (jsUpsert r.attributes p
            (getCastValue (ApiVal.getConfig r.api) p r.casts v))
      else r := by
  rw [OgSet]

theorem constructBase_eq (api : ApiVal) (attrs : Value) (path : String) :
    constructBase api attrs path =
      Res.mk api (if path = "" then "/" else path) [] [] []
        (StatusFlags.mk false false false false) freshWrapper := by
  rw [constructBase]
  rw [Res.fillable]
  rw [fillGo]

theorem fillGo_cons (src : Value) (r : Res) (p : String) (rest : List String) :
    fillGo src r (p :: rest) =
      if ¬ jsTruthy (sourceGet src p) then fillGo src r rest
      else if r.fillable.contains p then
        fillGo src
          (withAttributes r
            (jsUpsert r.attributes p
              (getCastValue (ApiVal.getConfig r.api) p r.casts (sourceGet src p))))
          rest
      else fillGo src r rest := by
  rw [fillGo]

theorem getCastValue_none {key : String} {casts : List (String × CastType)}
    (config : ApiVal) (v : Value) (h : alookup key casts = none) :
    getCastValue config key casts v = v := by
  rw [getCastValue]
  split
  · rfl
  · rename_i t heq
    rw [h] at heq
    cases heq

theorem getCastValue_prim {key : String} {casts : List (String × CastType)} {s : String}
    (config : ApiVal) (v : Value) (h : alookup key casts = some (CastType.prim s)) :
    getCastValue config key casts v = if s = "" then v else castPrim s v := by
  rw [getCastValue]
  split
  · rename_i heq
    rw [h] at heq
    cases heq
  · rename_i t heq
    rw [h] at heq
    injection heq with heq2
    subst heq2
    simp [castTFalsy]

theorem getCastValue_res {key : String} {casts : List (String × CastType)}
    {defs : List (String × CastType)}
    (config : ApiVal) (v : Value) (h : alookup key casts = some (CastType.res defs)) :
    getCastValue config key casts v =
      Value.vres (OgDefine (constructBase config v "") defs) := by
  rw [getCastValue]
  split
  · rename_i heq
    rw [h] at heq
    cases heq
  · rename_i t heq
    rw [h] at heq
    injection heq with heq2
    subst heq2
    simp [castTFalsy]

theorem schemaFold_nil (config : ApiVal) (casts : List (String × CastType))
    (sch : List (String × Value)) : schemaFold config casts [] sch = sch := by
  rw [schemaFold]

/-- The value SCHEMA stores for one cast path: the casting engine
output at null, with resource instances replaced by the child
schema. -/
def schemaVal (config : ApiVal) (casts : List (String × CastType)) (p : String) : Value :=
  match alookup p casts with
  | some (CastType.res defs) =>
    Value.vobj (schemaOfCasts (ApiVal.getConfig config) (upsertList defs))
  | some (CastType.prim s) => if s = "" then Value.vnull else castPrim s Value.vnull
  | none => Value.vnull

theorem schemaFold_cons (config : ApiVal) (casts : List (String × CastType))
    (p : String) (t : CastType) (rest : List (String × CastType))
    (sch : List (String × Value)) :
    schemaFold config casts ((p, t) :: rest) sch =
      schemaFold config casts rest (jsUpsert sch p (schemaVal config casts p)) := by
  rw [schemaFold]
  split
  · rename_i defs heq
    rw [schemaVal, heq]
    rfl
  · rename_i s heq
    rw [schemaVal, heq]
  · rename_i heq
    rw [schemaVal, heq]

theorem OgSet_inline (src : Value) (r : Res) (p : String) (rest : List String) :
    fillGo src r (p :: rest) =
      if ¬ jsTruthy (sourceGet src p) then fillGo src r rest
      else fillGo src (OgSet r p (sourceGet src p)) rest := by
  rw [fillGo_cons, OgSet_eq]
  by_cases h1 : jsTruthy (sourceGet src p)
  · by_cases h2 : p ∈ r.fillable
    · simp [h1, h2]
    · simp [h1, h2]
  · simp [h1]

@[simp] theorem withAttributes_self (r : Res) : withAttributes r r.attributes = r := by
  cases r; rfl

@[simp] theorem withAttributes_withAttributes (r : Res) (a b : List (String × Value)) :
    withAttributes (withAttributes r a) b = withAttributes r b := by
  cases r; rfl

/-- fill only ever rewrites the attribute store. -/
theorem fillGo_attrsOnly (src : Value) :
    ∀ (paths : List String) (r : Res), ∃ a, fillGo src r paths = withAttributes r a := by
  intro paths
  induction paths with
  | nil =>
    intro r
    exact ⟨r.attributes, by rw [fillGo_nil, withAttributes_self]⟩
  | cons p rest ih =>
    intro r
    rw [fillGo_cons]
    by_cases h1 : jsTruthy (sourceGet src p)
    · by_cases h2 : p ∈ r.fillable
      · obtain ⟨a, ha⟩ := ih (withAttributes r
          (jsUpsert r.attributes p
            (getCastValue (ApiVal.getConfig r.api) p r.casts (sourceGet src p))))
        refine ⟨a, ?_⟩
        rw [ha, withAttributes_withAttributes]
        simp [h1, List.elem_eq_true_of_mem h2]
        intro hc
        exact absurd h2 hc
      · simp [h1, h2]
        exact ih r
    · simp [h1]
      exact ih r

theorem OgFill_attrsOnly (r : Res) (src : Value) :
    ∃ a, OgFill r src = withAttributes r a := by
  rw [OgFill]
  exact fillGo_attrsOnly src r.fillable r

theorem OgSet_attrsOnly (r : Res) (p : String) (v : Value) :
    ∃ a, OgSet r p v = withAttributes r a := by
  rw [OgSet_eq]
  by_cases h : r.fillable.contains p = true
  · rw [if_pos h]
    exact ⟨_, rfl⟩
  · rw [if_neg h]
    exact ⟨r.attributes, (withAttributes_self r).symm⟩

@[simp] theorem OgFill_casts (r : Res) (src : Value) : (OgFill r src).casts = r.casts := by
  obtain ⟨a, ha⟩ := OgFill_attrsOnly r src
  rw [ha, withAttributes_casts]

@[simp] theorem OgFill_fillable (r : Res) (src : Value) :
    (OgFill r src).fillable = r.fillable := by
  obtain ⟨a, ha⟩ := OgFill_attrsOnly r src
  rw [ha, withAttributes_fillable]

@[simp] theorem OgFill_api (r : Res) (src : Value) : (OgFill r src).api = r.api := by
  obtain ⟨a, ha⟩ := OgFill_attrsOnly r src
  rw [ha, withAttributes_api]

@[simp] theorem OgFill_status (r : Res) (src : Value) : (OgFill r src).status = r.status := by
  obtain ⟨a, ha⟩ := OgFill_attrsOnly r src
  rw [ha, withAttributes_status]

@[simp] theorem OgFill_response (r : Res) (src : Value) :
    (OgFill r src).response = r.response := by
  obtain ⟨a, ha⟩ := OgFill_attrsOnly r src
  rw [ha, withAttributes_response]

@[simp] theorem OgSet_casts (r : Res) (p : String) (v : Value) :
    (OgSet r p v).casts = r.casts := by
  obtain ⟨a, ha⟩ := OgSet_attrsOnly r p v
  rw [ha, withAttributes_casts]

@[simp] theorem OgSet_fillable (r : Res) (p : String) (v : Value) :
    (OgSet r p v).fillable = r.fillable := by
  obtain ⟨a, ha⟩ := OgSet_attrsOnly r p v
  rw [ha, withAttributes_fillable]

@[simp] theorem OgSet_api (r : Res) (p : String) (v : Value) :
    (OgSet r p v).api = r.api := by
  obtain ⟨a, ha⟩ := OgSet_attrsOnly r p v
  rw [ha, withAttributes_api]

@[simp] theorem OgReset_casts (r : Res) : (OgReset r).casts = r.casts := by
  rw [OgReset, withAttributes_casts]

@[simp] theorem OgReset_fillable (r : Res) : (OgReset r).fillable = r.fillable := by
  rw [OgReset, withAttributes_fillable]

@[simp] theorem statusReset_casts (r : Res) : (statusReset r).casts = r.casts := by
  rw [statusReset, withStatus_casts]

@[simp] theorem statusReset_fillable (r : Res) : (statusReset r).fillable = r.fillable := by
  rw [statusReset, withStatus_fillable]

@[simp] theorem withCasts_api (r : Res) (c : List (String × CastType)) :
    (withCasts r c).api = r.api := by
  cases r; rfl

@[simp] theorem withCasts_path (r : Res) (c : List (String × CastType)) :
    (withCasts r c).path = r.path := by
  cases r; rfl

@[simp] theorem withCasts_casts (r : Res) (c : List (String × CastType)) :
    (withCasts r c).casts = c := by
  cases r; rfl

@[simp] theorem withCasts_fillable (r : Res) (c : List (String × CastType)) :
    (withCasts r c).fillable = r.fillable := by
  cases r; rfl

@[simp] theorem withCasts_attributes (r : Res) (c : List (String × CastType)) :
    (withCasts r c).attributes = r.attributes := by
  cases r; rfl

@[simp] theorem withCasts_status (r : Res) (c : List (String × CastType)) :
    (withCasts r c).status = r.status := by
  cases r; rfl

@[simp] theorem withCasts_response (r : Res) (c : List (String × CastType)) :
    (withCasts r c).response = r.response := by
  cases r; rfl

@[simp] theorem withFillable_api (r : Res) (f : List String) :
    (withFillable r f).api = r.api := by
  cases r; rfl

@[simp] theorem withFillable_path (r : Res) (f : List String) :
    (withFillable r f).path = r.path := by
  cases r; rfl

@[simp] theorem withFillable_casts (r : Res) (f : List String) :
    (withFillable r f).casts = r.casts := by
  cases r; rfl

@[simp] theorem withFillable_fillable (r : Res) (f : List String) :
    (withFillable r f).fillable = f := by
  cases r; rfl

@[simp] theorem withFillable_attributes (r : Res) (f : List String) :
    (withFillable r f).attributes = r.attributes := by
  cases r; rfl

@[simp] theorem withFillable_status (r : Res) (f : List String) :
    (withFillable r f).status = r.status := by
  cases r; rfl

@[simp] theorem withFillable_response (r : Res) (f : List String) :
    (withFillable r f).response = r.response := by
  cases r; rfl

@[simp] theorem OgCast_casts (r : Res) (p : String) (t : CastType) :
    (OgCast r p t).casts = jsUpsert r.casts p t := by
  rw [OgCast, OgFillable]
  simp

@[simp] theorem OgCast_fillable (r : Res) (p : String) (t : CastType) :
    (OgCast r p t).fillable = r.fillable ++ [p] := by
  rw [OgCast, OgFillable]
  simp

@[simp] theorem OgCast_api (r : Res) (p : String) (t : CastType) :
    (OgCast r p t).api = r.api := by
  rw [OgCast, OgFillable]
  simp

@[simp] theorem OgCast_attributes (r : Res) (p : String) (t : CastType) :
    (OgCast r p t).attributes = r.attributes := by
  rw [OgCast, OgFillable]
  simp

@[simp] theorem OgCast_status (r : Res) (p : String) (t : CastType) :
    (OgCast r p t).status = r.status := by
  rw [OgCast, OgFillable]
  simp

@[simp] theorem OgCast_response (r : Res) (p : String) (t : CastType) :
    (OgCast r p t).response = r.response := by
  rw [OgCast, OgFillable]
  simp

theorem foldl_OgCast_casts :
    ∀ (defs : List (String × CastType)) (r : Res),
      (defs.foldl (fun acc pt => OgCast acc pt.fst pt.snd) r).casts =
        defs.foldl (fun acc pt => jsUpsert acc pt.fst pt.snd) r.casts := by
  intro defs
  induction defs with
  | nil => intro r; rfl
  | cons pt rest ih =>
    intro r
    rw [List.foldl_cons, List.foldl_cons, ih, OgCast_casts]

theorem foldl_OgCast_fillable :
    ∀ (defs : List (String × CastType)) (r : Res),
      (defs.foldl (fun acc pt => OgCast acc pt.fst pt.snd) r).fillable =
        r.fillable ++ defs.map Prod.fst := by
  intro defs
  induction defs with
  | nil => intro r; simp
  | cons pt rest ih =>
    intro r
    rw [List.foldl_cons, ih, OgCast_fillable]
    simp

theorem foldl_OgCast_api :
    ∀ (defs : List (String × CastType)) (r : Res),
      (defs.foldl (fun acc pt => OgCast acc pt.fst pt.snd) r).api = r.api := by
  intro defs
  induction defs with
  | nil => intro r; rfl
  | cons pt rest ih =>
    intro r
    rw [List.foldl_cons, ih, OgCast_api]

theorem foldl_OgCast_attributes :
    ∀ (defs : List (String × CastType)) (r : Res),
      (defs.foldl (fun acc pt => OgCast acc pt.fst pt.snd) r).attributes = r.attributes := by
  intro defs
  induction defs with
  | nil => intro r; rfl
  | cons pt rest ih =>
    intro r
    rw [List.foldl_cons, ih, OgCast_attributes]

theorem foldl_OgCast_status :
    ∀ (defs : List (String × CastType)) (r : Res),
      (defs.foldl (fun acc pt => OgCast acc pt.fst pt.snd) r).status = r.status := by
  intro defs
  induction defs with
  | nil => intro r; rfl
  | cons pt rest ih =>
    intro r
    rw [List.foldl_cons, ih, OgCast_status]

theorem foldl_OgCast_response :
    ∀ (defs : List (String × CastType)) (r : Res),
      (defs.foldl (fun acc pt => OgCast acc pt.fst pt.snd) r).response = r.response := by
  intro defs
  induction defs with
  | nil => intro r; rfl
  | cons pt rest ih =>
    intro r
    rw [List.foldl_cons, ih, OgCast_response]

@[simp] theorem OgDefine_casts (r : Res) (defs : List (String × CastType)) :
    (OgDefine r defs).casts = defs.foldl (fun acc pt => jsUpsert acc pt.fst pt.snd) r.casts := by
  rw [OgDefine]
  simp [foldl_OgCast_casts]

@[simp] theorem OgDefine_fillable (r : Res) (defs : List (String × CastType)) :
    (OgDefine r defs).fillable = r.fillable ++ defs.map Prod.fst := by
  rw [OgDefine]
  simp [foldl_OgCast_fillable]

@[simp] theorem OgDefine_api (r : Res) (defs : List (String × CastType)) :
    (OgDefine r defs).api = r.api := by
  rw [OgDefine]
  simp [foldl_OgCast_api]

@[simp] theorem OgDefine_status (r : Res) (defs : List (String × CastType)) :
    (OgDefine r defs).status = r.status := by
  rw [OgDefine]
  simp [foldl_OgCast_status]

@[simp] theorem OgDefine_response (r : Res) (defs : List (String × CastType)) :
    (OgDefine r defs).response = r.response := by
  rw [OgDefine]
  simp [foldl_OgCast_response]

@[simp] theorem alookup_jsUpsert_self {α : Type} (l : List (String × α)) (k : String) (v : α) :
    alookup k (jsUpsert l k v) = some v := by
  induction l with
  | nil => simp [jsUpsert, alookup]
  | cons kv rest ih =>
    rw [jsUpsert]
    by_cases h : kv.fst = k
    · simp [h, alookup]
    · simp [h, alookup, ih]

theorem alookup_jsUpsert_ne {α : Type} (l : List (String × α)) (k k2 : String) (v : α)
    (h : k2 ≠ k) : alookup k2 (jsUpsert l k v) = alookup k2 l := by
  have h2 : ¬ (k = k2) := fun hh => h hh.symm
  induction l with
  | nil => simp [jsUpsert, alookup, h2]
  | cons kv rest ih =>
    rw [jsUpsert]
    by_cases hk : kv.fst = k
    · rw [if_pos hk, alookup, alookup, hk]
      simp [h2]
    · rw [if_neg hk, alookup, alookup, ih]

theorem mem_keys_jsUpsert {α : Type} (l : List (String × α)) (k : String) (v : α) (p : String) :
    p ∈ (jsUpsert l k v).map Prod.fst ↔ p = k ∨ p ∈ l.map Prod.fst := by
  induction l with
  | nil => simp [jsUpsert]
  | cons kv rest ih =>
    rw [jsUpsert]
    by_cases h : kv.fst = k
    · subst h
      simp
    · simp [h, ih]
      tauto

theorem mem_keys_foldl_upsert {α β : Type} (F : List (String × α) → (String × β) → α) :
    ∀ (items : List (String × β)) (acc : List (String × α)) (p : String),
      p ∈ ((items.foldl (fun out pt => jsUpsert out pt.fst (F out pt)) acc).map Prod.fst)
        ↔ p ∈ acc.map Prod.fst ∨ p ∈ items.map Prod.fst := by
  intro items
  induction items with
  | nil => intro acc p; simp
  | cons pt rest ih =>
    intro acc p
    rw [List.foldl_cons]
    rw [ih]
    rw [mem_keys_jsUpsert]
    simp
    tauto

theorem alookup_eq_none_iff {α : Type} (l : List (String × α)) (p : String) :
    alookup p l = none ↔ p ∉ l.map Prod.fst := by
  induction l with
  | nil => simp [alookup]
  | cons kv rest ih =>
    rw [alookup]
    by_cases h : kv.fst = p
    · simp [h]
    · simp [h, ih]
      intro hh
      exact fun hc => h hc.symm

theorem alookup_isSome_iff {α : Type} (l : List (String × α)) (p : String) :
    (alookup p l).isSome ↔ p ∈ l.map Prod.fst := by
  induction l with
  | nil => simp [alookup]
  | cons kv rest ih =>
    rw [alookup]
    by_cases h : kv.fst = p
    · simp [h]
    · have h2 : ¬ (p = kv.fst) := fun hh => h hh.symm
      simp [h, h2, ih]

@[simp] theorem Res_api_mk (a : ApiVal) (p : String) (c : List (String × CastType))
    (f : List String) (at2 : List (String × Value)) (st : StatusFlags) (re : RespSlot) :
    (Res.mk a p c f at2 st re).api = a := rfl

@[simp] theorem Res_path_mk (a : ApiVal) (p : String) (c : List (String × CastType))
    (f : List String) (at2 : List (String × Value)) (st : StatusFlags) (re : RespSlot) :
    (Res.mk a p c f at2 st re).path = p := rfl

@[simp] theorem Res_casts_mk (a : ApiVal) (p : String) (c : List (String × CastType))
    (f : List String) (at2 : List (String × Value)) (st : StatusFlags) (re : RespSlot) :
    (Res.mk a p c f at2 st re).casts = c := rfl

@[simp] theorem Res_fillable_mk (a : ApiVal) (p : String) (c : List (String × CastType))
    (f : List String) (at2 : List (String × Value)) (st : StatusFlags) (re : RespSlot) :
    (Res.mk a p c f at2 st re).fillable = f := rfl

@[simp] theorem Res_attributes_mk (a : ApiVal) (p : String) (c : List (String × CastType))
    (f : List String) (at2 : List (String × Value)) (st : StatusFlags) (re : RespSlot) :
    (Res.mk a p c f at2 st re).attributes = at2 := rfl

@[simp] theorem Res_status_mk (a : ApiVal) (p : String) (c : List (String × CastType))
    (f : List String) (at2 : List (String × Value)) (st : StatusFlags) (re : RespSlot) :
    (Res.mk a p c f at2 st re).status = st := rfl

@[simp] theorem Res_response_mk (a : ApiVal) (p : String) (c : List (String × CastType))
    (f : List String) (at2 : List (String × Value)) (st : StatusFlags) (re : RespSlot) :
    (Res.mk a p c f at2 st re).response = re := rfl

@[simp] theorem constructResource_api (defs : List (String × CastType)) (api : ApiVal)
    (attrs : Value) (path : String) : (constructResource defs api attrs path).api = api := by
  rw [constructResource, OgDefine_api, constructBase_eq, Res_api_mk]

@[simp] theorem constructResource_casts (defs : List (String × CastType)) (api : ApiVal)
    (attrs : Value) (path : String) :
    (constructResource defs api attrs path).casts = upsertList defs := by
  rw [constructResource, OgDefine_casts, constructBase_eq, Res_casts_mk, upsertList]

@[simp] theorem constructResource_fillable (defs : List (String × CastType)) (api : ApiVal)
    (attrs : Value) (path : String) :
    (constructResource defs api attrs path).fillable = defs.map Prod.fst := by
  rw [constructResource, OgDefine_fillable, constructBase_eq, Res_fillable_mk]
  simp

@[simp] theorem constructResource_status (defs : List (String × CastType)) (api : ApiVal)
    (attrs : Value) (path : String) :
    (constructResource defs api attrs path).status = StatusFlags.mk false false false false := by
  rw [constructResource, OgDefine_status, constructBase_eq, Res_status_mk]

@[simp] theorem constructResource_response (defs : List (String × CastType)) (api : ApiVal)
    (attrs : Value) (path : String) :
    (constructResource defs api attrs path).response = freshWrapper := by
  rw [constructResource, OgDefine_response, constructBase_eq, Res_response_mk]

theorem OgSave_eq (r : Res) (o : FetchOutcome) :
    OgSave r o = OpOutcome.thrown apiAbortError r := rfl

theorem OgAbort_eq (r : Res) :
    OgAbort r = OpOutcome.thrown apiAbortError r := rfl

theorem OgSave_state_casts (r : Res) (o : FetchOutcome) :
    (OpOutcome.state (OgSave r o)).casts = r.casts := by
  rw [OgSave_eq, OpOutcome.state]

theorem OgSave_state_fillable (r : Res) (o : FetchOutcome) :
    (OpOutcome.state (OgSave r o)).fillable = r.fillable := by
  rw [OgSave_eq, OpOutcome.state]

theorem OgAbort_state_casts (r : Res) :
    (OpOutcome.state (OgAbort r)).casts = r.casts := by
  rw [OgAbort_eq, OpOutcome.state]

theorem OgAbort_state_fillable (r : Res) :
    (OpOutcome.state (OgAbort r)).fillable = r.fillable := by
  rw [OgAbort_eq, OpOutcome.state]

/-- The invariant of claim C8: every cast path is fillable. -/
def castImpliesFillable (r : Res) : Prop :=
  ∀ p, p ∈ r.casts.map Prod.fst → p ∈ r.fillable

theorem applyOp_preserves_cif (r : Res) (op : Op) (h : castImpliesFillable r) :
    castImpliesFillable (applyOp r op) := by
  cases op with
  | define defs =>
    intro p hp
    rw [applyOp, OgDefine_casts] at hp
    rw [applyOp, OgDefine_fillable]
    have hm := (mem_keys_foldl_upsert (fun _ pt => pt.snd) defs r.casts p).mp hp
    rcases hm with hm | hm
    · exact List.mem_append_left _ (h p hm)
    · exact List.mem_append_right _ hm
  | cast p2 t =>
    intro p hp
    rw [applyOp, OgCast_casts] at hp
    rw [applyOp, OgCast_fillable]
    rcases (mem_keys_jsUpsert r.casts p2 t p).mp hp with hm | hm
    · subst hm
      simp
    · exact List.mem_append_left _ (h p hm)
  | fillable p2 =>
    intro p hp
    rw [applyOp, OgFillable] at hp ⊢
    rw [withFillable_casts] at hp
    rw [withFillable_fillable]
    exact List.mem_append_left _ (h p hp)
  | fill src =>
    intro p hp
    rw [applyOp, OgFill_casts] at hp
    rw [applyOp, OgFill_fillable]
    exact h p hp
  | set p2 v =>
    intro p hp
    rw [applyOp, OgSet_casts] at hp
    rw [applyOp, OgSet_fillable]
    exact h p hp
  | save o =>
    intro p hp
    rw [applyOp, OgSave_state_casts] at hp
    rw [applyOp, OgSave_state_fillable]
    exact h p hp
  | abort =>
    intro p hp
    rw [applyOp, OgAbort_state_casts] at hp
    rw [applyOp, OgAbort_state_fillable]
    exact h p hp
  | reset =>
    intro p hp
    rw [applyOp, OgReset_casts] at hp
    rw [applyOp, OgReset_fillable]
    exact h p hp

theorem runOps_preserves_cif (ops : List Op) :
    ∀ (r : Res), castImpliesFillable r → castImpliesFillable (runOps r ops) := by
  induction ops with
  | nil => intro r h; exact h
  | cons op rest ih =>
    intro r h
    rw [runOps, List.foldl_cons]
    exact ih (applyOp r op) (applyOp_preserves_cif r op h)

theorem constructResource_cif (defs : List (String × CastType)) (api : ApiVal)
    (attrs : Value) (path : String) :
    castImpliesFillable (constructResource defs api attrs path) := by
  intro p hp
  rw [constructResource_casts] at hp
  rw [constructResource_fillable]
  have := (mem_keys_foldl_upsert (fun _ pt => pt.snd) defs [] p).mp
  rw [upsertList] at hp
  have h2 := this hp
  simpa using h2

theorem fillGo_all_falsy (src : Value) (h : ∀ q, jsTruthy (sourceGet src q) = false) :
    ∀ (paths : List String) (r : Res), fillGo src r paths = r := by
  intro paths
  induction paths with
  | nil => intro r; rw [fillGo_nil]
  | cons p rest ih =>
    intro r
    rw [fillGo_cons]
    simp [h p, ih r]

theorem toJSON_keys_iff (r : Res) (p : String) :
    p ∈ (toJSON r).map Prod.fst ↔ p ∈ r.casts.map Prod.fst := by
  rw [toJSON]
  have := mem_keys_foldl_upsert
    (fun (_ : List (String × Value)) (pt : String × CastType) => OgGet r pt.fst Value.vnull)
    r.casts [] p
  simpa using this

/-- Claim C6: the paths of the toJSON output are exactly the paths
declared in casts — every cast path appears and nothing else does,
fillable or not, filled or not. -/
theorem c6_toJSON_paths_are_cast_paths (r : Res) (p : String) :
    p ∈ (toJSON r).map Prod.fst ↔ p ∈ r.casts.map Prod.fst :=
  toJSON_keys_iff r p

/-- Claim C9: filled(path) is the strict non-null test on the stored
value — true on a stored 0 or false, false exactly when the stored
value is null or absent — while get(path) on a stored 0 or false falls
back to the schema value. -/
theorem c9_filled_is_strict_null_check (r : Res) (p : String) :
    (OgFilled r p = true ↔ lodashGet r.attributes p Value.vnull ≠ Value.vnull)
    ∧ (alookup p r.attributes = some (Value.vint 0) →
        OgFilled r p = true ∧ ∀ d, OgGet r p d = lodashGet (SCHEMA r) p d)
    ∧ (alookup p r.attributes = some (Value.vbool false) →
        OgFilled r p = true ∧ ∀ d, OgGet r p d = lodashGet (SCHEMA r) p d)
    ∧ (alookup p r.attributes = none → OgFilled r p = false)
    ∧ (alookup p r.attributes = some Value.vnull → OgFilled r p = false) := by
  refine ⟨?_, ?_, ?_, ?_, ?_⟩
  · rw [OgFilled]
    cases hv : lodashGet r.attributes p Value.vnull
    all_goals simp
  · intro h
    constructor
    · rw [OgFilled, lodashGet, h]
    · intro d
      rw [OgGet]
      simp [lodashGet, h, jsTruthy]
  · intro h
    constructor
    · rw [OgFilled, lodashGet, h]
    · intro d
      rw [OgGet]
      simp [lodashGet, h, jsTruthy]
  · intro h
    rw [OgFilled, lodashGet, h]
  · intro h
    rw [OgFilled, lodashGet, h]

/-- Claim C4 (amended is not needed; confirmed): on a fillable
integer-cast path, fill with a source holding 0 leaves the whole state
unchanged (the falsy guard skips every path), while a direct set
stores the integer 0. -/
theorem c4_fill_falsy_skips_set_stores (r : Res) (p : String)
    (hf : p ∈ r.fillable) (hc : alookup p r.casts = some (CastType.prim "integer")) :
    OgFill r (Value.vobj [(p, Value.vint 0)]) = r
    ∧ alookup p (OgSet r p (Value.vint 0)).attributes = some (Value.vint 0) := by
  constructor
  · rw [OgFill]
    apply fillGo_all_falsy
    intro q
    rw [sourceGet, lodashGet, alookup]
    by_cases hq : p = q
    · simp [hq, jsTruthy]
    · simp [hq, alookup, jsTruthy]
  · rw [OgSet_eq, if_pos (List.elem_eq_true_of_mem hf), withAttributes_attributes,
      alookup_jsUpsert_self]
    rw [getCastValue_prim (ApiVal.getConfig r.api) (Value.vint 0) hc]
    rfl

/-- Claim C10: the base OgResource constructor always discards the
attributes argument — fill runs while fillable is still empty, so the
constructed state is independent of it and its attribute store is
empty. -/
theorem c10_base_constructor_discards_attributes (api : ApiVal) (a1 a2 : Value)
    (path : String) :
    constructBase api a1 path = constructBase api a2 path
    ∧ (constructBase api a1 path).attributes = [] := by
  constructor
  · rw [constructBase_eq, constructBase_eq]
  · rw [constructBase_eq, Res_attributes_mk]

/-- Claim C8: in every state reachable from a constructed resource by
any sequence of define, cast, fillable, fill, set, save, abort and
reset operations, every cast path is also fillable. -/
theorem c8_every_cast_path_fillable (defs : List (String × CastType)) (api : ApiVal)
    (attrs : Value) (path : String) (ops : List Op) :
    castImpliesFillable (runOps (constructResource defs api attrs path) ops) :=
  runOps_preserves_cif ops _ (constructResource_cif defs api attrs path)

theorem schemaFold_lookup (config : ApiVal) (casts : List (String × CastType)) (p : String) :
    ∀ (items : List (String × CastType)) (sch : List (String × Value)),
      alookup p (schemaFold config casts items sch) =
        if p ∈ items.map Prod.fst then some (schemaVal config casts p) else alookup p sch := by
  intro items
  induction items with
  | nil =>
    intro sch
    rw [schemaFold_nil]
    simp
  | cons qt rest ih =>
    intro sch
    cases qt with
    | mk q t =>
      rw [schemaFold_cons, ih]
      by_cases hr : p ∈ rest.map Prod.fst
      · simp [hr]
      · by_cases hq : p = q
        · subst hq
          simp [hr, alookup_jsUpsert_self]
        · rw [if_neg hr, alookup_jsUpsert_ne _ _ _ _ hq]
          simp [hr, hq]

theorem schemaOfCasts_lookup (config : ApiVal) (casts : List (String × CastType)) (p : String) :
    alookup p (schemaOfCasts config casts) =
      if p ∈ casts.map Prod.fst then some (schemaVal config casts p) else none := by
  rw [schemaOfCasts, schemaFold_lookup]
  simp [alookup]

theorem alookup_SCHEMA (r : Res) (p : String) :
    alookup p (SCHEMA r) =
      if p ∈ r.casts.map Prod.fst then
        some (schemaVal (ApiVal.getConfig r.api) r.casts p)
      else none := by
  rw [SCHEMA, schemaOfCasts_lookup]

theorem lodashGet_SCHEMA (r : Res) (p : String) (d : Value) :
    lodashGet (SCHEMA r) p d =
      if p ∈ r.casts.map Prod.fst then
        (match schemaVal (ApiVal.getConfig r.api) r.casts p with
         | Value.vundefined => d
         | v => v)
      else d := by
  rw [lodashGet, alookup_SCHEMA]
  by_cases h : p ∈ r.casts.map Prod.fst
  · rw [if_pos h, if_pos h]
    cases hv : schemaVal (ApiVal.getConfig r.api) r.casts p <;> simp
  · rw [if_neg h, if_neg h]

theorem OgGet_fallback (r : Res) (p : String) (d : Value)
    (h : jsTruthy (lodashGet r.attributes p d) = false) :
    OgGet r p d = lodashGet (SCHEMA r) p d := by
  rw [OgGet]
  simp [h]

theorem OgGet_direct (r : Res) (p : String) (d : Value)
    (h : jsTruthy (lodashGet r.attributes p d) = true) :
    OgGet r p d = lodashGet r.attributes p d := by
  rw [OgGet]
  simp [h]

theorem fillGo_step_truthy (src : Value) (r : Res) (p : String) (rest : List String)
    (h : jsTruthy (sourceGet src p) = true) :
    fillGo src r (p :: rest) = fillGo src (OgSet r p (sourceGet src p)) rest := by
  rw [OgSet_inline]
  simp [h]

theorem fillGo_step_falsy (src : Value) (r : Res) (p : String) (rest : List String)
    (h : jsTruthy (sourceGet src p) = false) :
    fillGo src r (p :: rest) = fillGo src r rest := by
  rw [OgSet_inline]
  simp [h]

theorem OgSet_found (r : Res) (p : String) (v cv : Value) (hf : p ∈ r.fillable)
    (hcv : getCastValue (ApiVal.getConfig r.api) p r.casts v = cv) :
    OgSet r p v = withAttributes r (jsUpsert r.attributes p cv) := by
  rw [OgSet_eq, if_pos (List.elem_eq_true_of_mem hf), hcv]

@[simp] theorem statusReset_response (r : Res) : (statusReset r).response = r.response := by
  rw [statusReset, withStatus_response]

@[simp] theorem statusReset_attributes (r : Res) : (statusReset r).attributes = r.attributes := by
  rw [statusReset, withStatus_attributes]

@[simp] theorem statusReset_api (r : Res) : (statusReset r).api = r.api := by
  rw [statusReset, withStatus_api]

@[simp] theorem statusReset_status (r : Res) :
    (statusReset r).status = StatusFlags.mk false false false false := by
  rw [statusReset, withStatus_status]

theorem OgGet_congr (r1 r2 : Res) (hc : r1.casts = r2.casts)
    (ha : r1.attributes = r2.attributes) (hapi : r1.api = r2.api) (p : String) (d : Value) :
    OgGet r1 p d = OgGet r2 p d := by
  rw [OgGet, OgGet, SCHEMA, SCHEMA, hc, ha, hapi]

theorem toJSON_congr (r1 r2 : Res) (hc : r1.casts = r2.casts)
    (ha : r1.attributes = r2.attributes) (hapi : r1.api = r2.api) :
    toJSON r1 = toJSON r2 := by
  rw [toJSON, toJSON, hc]
  have hfun : (fun (out : List (String × Value)) (pt : String × CastType) =>
      jsUpsert out pt.fst (OgGet r1 pt.fst Value.vnull)) =
      (fun (out : List (String × Value)) (pt : String × CastType) =>
      jsUpsert out pt.fst (OgGet r2 pt.fst Value.vnull)) := by
    funext out pt
    rw [OgGet_congr r1 r2 hc ha hapi]
  rw [hfun]

def apiD : ApiVal := ApiVal.obj 1 (ApiVal.obj 2 ApiVal.undef)

def castsC3 : List (String × CastType) :=
  [("name", CastType.prim "string"), ("age", CastType.prim "integer")]

def demoC3 : Res := constructResource castsC3 apiD (Value.vobj []) "/users"

def r1C3 : Res := Res.mk apiD "/users" castsC3 ["name", "age"] []
  (StatusFlags.mk false false false false) freshWrapper

def demoC3Lit : Res := Res.mk apiD "/users" castsC3 ["name", "age"]
  [("name", Value.vstr ""), ("age", Value.vint 0)]
  (StatusFlags.mk false false false false) freshWrapper

theorem demoC3_unfold : demoC3 = withAttributes r1C3 (toJSON r1C3) := by
  rw [demoC3, constructResource, constructBase_eq, OgDefine]
  rfl

theorem hnameC3 : OgGet r1C3 "name" Value.vnull = Value.vstr "" := by
  rw [OgGet_fallback _ _ _ (by rfl), lodashGet_SCHEMA, if_pos (by decide)]
  rfl

theorem hageC3 : OgGet r1C3 "age" Value.vnull = Value.vint 0 := by
  rw [OgGet_fallback _ _ _ (by rfl), lodashGet_SCHEMA, if_pos (by decide)]
  rfl

theorem toJSON_r1C3 : toJSON r1C3 = [("name", Value.vstr ""), ("age", Value.vint 0)] := by
  rw [toJSON]
  have hc : r1C3.casts = castsC3 := rfl
  rw [hc]
  simp only [castsC3, List.foldl_cons, List.foldl_nil]
  rw [hnameC3, hageC3]
  rfl

theorem demoC3_lit : demoC3 = demoC3Lit := by
  rw [demoC3_unfold, toJSON_r1C3]
  rfl

def srcC3 : Value := Value.vobj [("name", Value.vstr "Ana"), ("age", Value.vstr "7x")]

def filledC3 : Res := Res.mk apiD "/users" castsC3 ["name", "age"]
  [("name", Value.vstr "Ana"), ("age", Value.vint 7)]
  (StatusFlags.mk false false false false) freshWrapper

theorem fillC3 : OgFill demoC3 srcC3 = filledC3 := by
  rw [demoC3_lit, OgFill]
  have hfb : demoC3Lit.fillable = ["name", "age"] := rfl
  rw [hfb]
  rw [fillGo_step_truthy _ _ _ _ (by rfl)]
  rw [OgSet_eq, if_pos (by decide), getCastValue_prim _ _ (by rfl)]
  rw [fillGo_step_truthy _ _ _ _ (by rfl)]
  rw [OgSet_eq, if_pos (by decide), getCastValue_prim _ _ (by rfl)]
  rw [fillGo_nil]
  rfl

theorem hnameF : OgGet filledC3 "name" Value.vnull = Value.vstr "Ana" := by
  rw [OgGet_direct _ _ _ (by rfl)]
  rfl

theorem hageF : OgGet filledC3 "age" Value.vnull = Value.vint 7 := by
  rw [OgGet_direct _ _ _ (by rfl)]
  rfl

theorem toJSON_filledC3 :
    toJSON (OgFill demoC3 srcC3) = [("name", Value.vstr "Ana"), ("age", Value.vint 7)] := by
  rw [fillC3, toJSON]
  have hc : filledC3.casts = castsC3 := rfl
  rw [hc]
  simp only [castsC3, List.foldl_cons, List.foldl_nil]
  rw [hnameF, hageF]
  rfl

/-- Claim C3 counterexample: the claimed scenario output is wrong on
the code — fill with age "7x" stores 7, because parseInt("7x", 10)
parses the leading digit run and yields 7, not NaN; toJSON therefore
carries age 7, not 0. -/
theorem c3_counterexample_age_seven :
    toJSON (OgFill demoC3 srcC3) = [("name", Value.vstr "Ana"), ("age", Value.vint 7)]
    ∧ toJSON (OgFill demoC3 srcC3) ≠ [("name", Value.vstr "Ana"), ("age", Value.vint 0)] := by
  constructor
  · exact toJSON_filledC3
  · rw [toJSON_filledC3]
    simp

/-- Claim C3 (amended): on an integer-cast fillable path, set stores
the base-10 parseInt of the value with 0 when the parse fails (NaN) or
yields 0 — parseInt takes the longest leading digit run after optional
sign and whitespace, so "7x" parses to 7 — and fill additionally skips
falsy inputs before any store; the scenario fill of name "Ana" and age
"7x" makes toJSON carry name "Ana" and age 7. -/
theorem c3_integer_cast_is_parseint (r : Res) (p : String) (v : Value)
    (hf : p ∈ r.fillable) (hc : alookup p r.casts = some (CastType.prim "integer")) :
    alookup p (OgSet r p v).attributes = some (Value.vint ((jsParseInt v).getD 0))
    ∧ jsParseInt (Value.vstr "7x") = some 7
    ∧ alookup "age" (toJSON (OgFill demoC3 srcC3)) = some (Value.vint 7) := by
  refine ⟨?_, rfl, ?_⟩
  · rw [OgSet_eq, if_pos (List.elem_eq_true_of_mem hf), withAttributes_attributes,
      alookup_jsUpsert_self, getCastValue_prim _ _ hc]
    rfl
  · rw [toJSON_filledC3]
    rfl

/-- Witness for claim C3: the amended theorem applied to the concrete
resource at path age with input "31". -/
theorem c3_witness :
    alookup "age" (OgSet demoC3Lit "age" (Value.vstr "31")).attributes =
      some (Value.vint ((jsParseInt (Value.vstr "31")).getD 0))
    ∧ jsParseInt (Value.vstr "7x") = some 7
    ∧ alookup "age" (toJSON (OgFill demoC3 srcC3)) = some (Value.vint 7) :=
  c3_integer_cast_is_parseint demoC3Lit "age" (Value.vstr "31") (by decide) rfl

/-- Witness for claim C4: the theorem applied to the concrete resource
on its integer path age. -/
theorem c4_witness :
    OgFill demoC3Lit (Value.vobj [("age", Value.vint 0)]) = demoC3Lit
    ∧ alookup "age" (OgSet demoC3Lit "age" (Value.vint 0)).attributes =
        some (Value.vint 0) :=
  c4_fill_falsy_skips_set_stores demoC3Lit "age" (by decide) rfl

/-- A state holding the integer 0 at a fillable uncast path, for the
claim C9 witness. -/
def zeroRes : Res := Res.mk apiD "/x" [] ["a"] [("a", Value.vint 0)]
  (StatusFlags.mk false false false false) freshWrapper

/-- Witness for claim C9: on a stored 0, filled is true while get
falls back to the schema. -/
theorem c9_witness :
    OgFilled zeroRes "a" = true
    ∧ OgGet zeroRes "a" Value.vnull = lodashGet (SCHEMA zeroRes) "a" Value.vnull := by
  have h := c9_filled_is_strict_null_check zeroRes "a"
  exact ⟨(h.2.1 rfl).1, (h.2.1 rfl).2 Value.vnull⟩

/-- Witness for claim C8: after constructing the two-cast resource and
running a set operation, the cast path name is fillable. -/
theorem c8_witness :
    "name" ∈ (runOps (constructResource castsC3 apiD (Value.vobj []) "/users")
      [Op.set "x" (Value.vint 3)]).fillable := by
  apply c8_every_cast_path_fillable castsC3 apiD (Value.vobj []) "/users"
    [Op.set "x" (Value.vint 3)] "name"
  rw [runOps, List.foldl_cons, List.foldl_nil, applyOp, OgSet_casts, constructResource_casts]
  decide

def addrDefs : List (String × CastType) := [("city", CastType.prim "string")]

def castsC2 : List (String × CastType) := [("address", CastType.res addrDefs)]

def parentC2 : Res := constructResource castsC2 apiD (Value.vobj []) "/profiles"

/-- Claim C2 (amended): reading a nested-Resource cast path through
set stores a live child constructed by `new type(config, value)` where
config is the parent config object `$api.config`, passed by reference:
the child collaborator slot holds the parent config — not the parent
transport instance, and not a fresh collaborator — and the child is
initialized by the constructor fill of the raw input (which writes
nothing, fillable being empty at that point). -/
theorem c2_nested_cast_child_gets_parent_config (r : Res) (p : String)
    (defs : List (String × CastType)) (v : Value)
    (hf : p ∈ r.fillable) (hc : alookup p r.casts = some (CastType.res defs)) :
    alookup p (OgSet r p v).attributes =
      some (Value.vres (constructResource defs (ApiVal.getConfig r.api) v ""))
    ∧ (constructResource defs (ApiVal.getConfig r.api) v "").api = ApiVal.getConfig r.api := by
  constructor
  · rw [OgSet_eq, if_pos (List.elem_eq_true_of_mem hf), withAttributes_attributes,
      alookup_jsUpsert_self, getCastValue_res _ _ hc, constructResource]
  · rw [constructResource_api]

/-- Claim C2 counterexample: with the parent transport being object 1
and its config object 2, the child stored for the nested address cast
holds object 2 — the parent config — in its collaborator slot, which
is not the parent transport object (no reference equality). -/
theorem c2_counterexample_child_collaborator :
    alookup "address" (OgSet parentC2 "address" (Value.vobj [])).attributes =
      some (Value.vres (constructResource addrDefs (ApiVal.obj 2 ApiVal.undef)
        (Value.vobj []) ""))
    ∧ (constructResource addrDefs (ApiVal.obj 2 ApiVal.undef) (Value.vobj []) "").api
        ≠ parentC2.api := by
  have hf : "address" ∈ parentC2.fillable := by
    simp only [parentC2, constructResource_fillable]
    decide
  have hc : alookup "address" parentC2.casts = some (CastType.res addrDefs) := by
    simp only [parentC2, constructResource_casts]
    rfl
  have hapi : parentC2.api = apiD := by
    simp only [parentC2, constructResource_api]
  constructor
  · rw [OgSet_eq, if_pos (List.elem_eq_true_of_mem hf), withAttributes_attributes,
      alookup_jsUpsert_self, getCastValue_res _ _ hc, constructResource, hapi]
    rfl
  · rw [constructResource_api, hapi]
    decide

/-- Witness for claim C2: the amended theorem applied to the concrete
parent resource. -/
theorem c2_witness :
    alookup "address" (OgSet parentC2 "address" (Value.vobj [])).attributes =
      some (Value.vres (constructResource addrDefs (ApiVal.getConfig parentC2.api)
        (Value.vobj []) ""))
    ∧ (constructResource addrDefs (ApiVal.getConfig parentC2.api) (Value.vobj []) "").api
        = ApiVal.getConfig parentC2.api :=
  c2_nested_cast_child_gets_parent_config parentC2 "address" addrDefs (Value.vobj [])
    (by simp only [parentC2, constructResource_fillable]; decide)
    (by simp only [parentC2, constructResource_casts]; rfl)

def demoC5 : Res :=
  OgSet (OgFillable (constructBase apiD (Value.vobj []) "/x") "b") "b" (Value.vint 1)

def demoC5Lit : Res := Res.mk apiD "/x" [] ["b"] [("b", Value.vint 1)]
  (StatusFlags.mk false false false false) freshWrapper

theorem demoC5_lit : demoC5 = demoC5Lit := by
  rw [demoC5, constructBase_eq, OgFillable]
  rw [OgSet_eq, if_pos (by decide), getCastValue_none _ _ (by rfl)]
  rfl

/-- A state with the fetching flag set and a failed wrapper, reachable
as the in-flight state of a fetch against a transport that reported a
419 failure. -/
def demoC5v : Res := Res.mk apiD "/x" [] ["b"] [("b", Value.vint 1)]
  (StatusFlags.mk false false true false) (RespSlot.wrapper true "Expired" 419)

/-- Claim C5 counterexample: abort() throws a TypeError at its first
step, this.$api.abort() — OgApi declares no abort method — instead of
performing the claimed flag reset, wrapper clear and re-snapshot. On
the constructed resource demoC5 the throw happens with the state
untouched; on a state with the fetching flag set and a failed wrapper
(the in-flight shape of the spec lifecycle), the flag is still set and
the wrapper still holds the failure after the throw, refuting the
claimed reset and clear. -/
theorem c5_counterexample_abort_does_not_reset :
    OgAbort demoC5 = OpOutcome.thrown apiAbortError demoC5
    ∧ OgAbort demoC5v = OpOutcome.thrown apiAbortError demoC5v
    ∧ (OpOutcome.state (OgAbort demoC5v)).status.fetching = true
    ∧ (OpOutcome.state (OgAbort demoC5v)).response = RespSlot.wrapper true "Expired" 419
    ∧ demoC5v.status.fetching = true := by
  refine ⟨rfl, rfl, rfl, rfl, rfl⟩

/-- Claim C5 (amended): for every reachable Resource state, abort()
against the api objects of this repository throws a TypeError at its
first step, this.$api.abort() (OgApi declares no abort method), and
exits with the state entirely untouched: the attribute snapshot is
unchanged — abort is indeed a no-op on attribute values — but the four
status flags are not reset and the Response Wrapper is not cleared
either. -/
theorem c5_abort_throws_typeerror_state_untouched (r : Res) :
    OgAbort r = OpOutcome.thrown apiAbortError r
    ∧ (OpOutcome.state (OgAbort r)).attributes = r.attributes
    ∧ (OpOutcome.state (OgAbort r)).status = r.status
    ∧ (OpOutcome.state (OgAbort r)).response = r.response := by
  refine ⟨rfl, rfl, rfl, rfl⟩

theorem schemaOfCasts_city :
    ∀ (c2 : ApiVal), schemaOfCasts c2 [("city", CastType.prim "string")] =
      [("city", Value.vstr "")] := by
  intro c2
  rw [schemaOfCasts, schemaFold_cons, schemaFold_nil]
  rfl

/-- Claim C7: every declared cast coerces null/absent input to its
documented zero value (boolean false, string empty, integer 0, decimal
0.0), the derived schema reproduces exactly these values, and a
nested-Resource cast is replaced in the schema by the child schema —
in the address/city scenario, schema.address is the object with an
empty city string. -/
theorem c7_zero_values_and_schema (config : ApiVal) (casts : List (String × CastType))
    (p : String) :
    (alookup p casts = some (CastType.prim "boolean") →
      getCastValue config p casts Value.vnull = Value.vbool false
      ∧ alookup p (schemaOfCasts config casts) = some (Value.vbool false))
    ∧ (alookup p casts = some (CastType.prim "string") →
      getCastValue config p casts Value.vnull = Value.vstr ""
      ∧ alookup p (schemaOfCasts config casts) = some (Value.vstr ""))
    ∧ (alookup p casts = some (CastType.prim "integer") →
      getCastValue config p casts Value.vnull = Value.vint 0
      ∧ alookup p (schemaOfCasts config casts) = some (Value.vint 0))
    ∧ (alookup p casts = some (CastType.prim "decimal") →
      getCastValue config p casts Value.vnull = Value.vdec 0
      ∧ alookup p (schemaOfCasts config casts) = some (Value.vdec 0))
    ∧ (∀ defs, alookup p casts = some (CastType.res defs) →
      alookup p (schemaOfCasts config casts) =
        some (Value.vobj (schemaOfCasts (ApiVal.getConfig config) (upsertList defs))))
    ∧ alookup "address"
        (schemaOfCasts config [("address", CastType.res [("city", CastType.prim "string")])])
        = some (Value.vobj [("city", Value.vstr "")]) := by
  have hmem : ∀ (t : CastType), alookup p casts = some t → p ∈ casts.map Prod.fst := by
    intro t ht
    have := (alookup_isSome_iff casts p).mp (by rw [ht]; rfl)
    exact this
  refine ⟨?_, ?_, ?_, ?_, ?_, ?_⟩
  · intro h
    refine ⟨?_, ?_⟩
    · rw [getCastValue_prim _ _ h]
      rfl
    · rw [schemaOfCasts_lookup, if_pos (hmem _ h), schemaVal]
      simp only [h]
      rfl
  · intro h
    refine ⟨?_, ?_⟩
    · rw [getCastValue_prim _ _ h]
      rfl
    · rw [schemaOfCasts_lookup, if_pos (hmem _ h), schemaVal]
      simp only [h]
      rfl
  · intro h
    refine ⟨?_, ?_⟩
    · rw [getCastValue_prim _ _ h]
      rfl
    · rw [schemaOfCasts_lookup, if_pos (hmem _ h), schemaVal]
      simp only [h]
      rfl
  · intro h
    refine ⟨?_, ?_⟩
    · rw [getCastValue_prim _ _ h]
      rfl
    · rw [schemaOfCasts_lookup, if_pos (hmem _ h), schemaVal]
      simp only [h]
      rfl
  · intro defs h
    rw [schemaOfCasts_lookup, if_pos (hmem _ h), schemaVal]
    simp only [h]
  · rw [schemaOfCasts_lookup, if_pos (by decide)]
    rw [show schemaVal config [("address", CastType.res [("city", CastType.prim "string")])]
        "address" =
      Value.vobj (schemaOfCasts (ApiVal.getConfig config) [("city", CastType.prim "string")])
      from rfl]
    rw [schemaOfCasts_city]

/-- Witness for claim C7: the theorem applied to the concrete cast map
at path age (integer zero value) together with the address scenario
clause. -/
theorem c7_witness :
    (getCastValue apiD "age" castsC3 Value.vnull = Value.vint 0
      ∧ alookup "age" (schemaOfCasts apiD castsC3) = some (Value.vint 0))
    ∧ alookup "address"
        (schemaOfCasts apiD [("address", CastType.res [("city", CastType.prim "string")])])
        = some (Value.vobj [("city", Value.vstr "")]) := by
  have h := c7_zero_values_and_schema apiD castsC3 "age"
  exact ⟨h.2.2.1 rfl, h.2.2.2.2.2⟩

def oExpired : FetchOutcome := FetchOutcome.mk false 419 "Expired" (Value.vobj [])

/-- A state with the fetching flag set, reachable as the in-flight
state of a fetch. -/
def demoFetching : Res := Res.mk apiD "/users" castsC3 ["name", "age"]
  [("name", Value.vstr ""), ("age", Value.vint 0)]
  (StatusFlags.mk false false true false) freshWrapper

/-- Claim C1 (code bug): against a transport outcome with ok false,
status 419 and message "Expired", save() does throw — but a TypeError
from its very first step, this.$api.abort() (OgResource.js line 101):
OgApi declares no abort method, so save never reaches the transport
call. The thrown message is not the claimed Response Wrapper message
"Expired", and the status flags are not reset — a fetching flag set
before the call is still set after the throw. (Independently, even
with an abort method present, save could not throw "Expired":
OgApi.post returns only the payload $response.data, so the failed read
on the assigned slot would be undefined and falsy — see the some
branch of OgSave.) -/
theorem c1_save_throws_typeerror_before_transport :
    OgSave demoC3Lit oExpired = OpOutcome.thrown apiAbortError demoC3Lit
    ∧ apiAbortError ≠ "Expired"
    ∧ (OpOutcome.state (OgSave demoFetching oExpired)).status.fetching = true := by
  refine ⟨rfl, by decide, rfl⟩

/-- The instanceof-OgResource replacement the SCHEMA getter applies to
each computed cast value: a resource instance is replaced by its own
SCHEMA, everything else is kept. -/
def instRepl (v : Value) : Value :=
  match v with
  | Value.vres child => Value.vobj (SCHEMA child)
  | v => v

theorem instRepl_not_vres (X : Value) (h : ∀ c, X ≠ Value.vres c) : instRepl X = X := by
  cases X <;> first
    | rfl
    | exact absurd rfl (h _)

/-- Validation of the schema embedding: the per-path value stored by
schemaFold is exactly the casting engine output at null with the
instanceof-OgResource replacement applied, as the source SCHEMA getter
computes it. -/
theorem getCastValue_schema_agree (config : ApiVal) (casts : List (String × CastType))
    (p : String) :
    schemaVal config casts p = instRepl (getCastValue config p casts Value.vnull) := by
  rcases h : alookup p casts with _ | t
  · rw [schemaVal]
    simp only [h]
    rw [getCastValue_none _ _ h]
    rfl
  · cases t with
    | prim s =>
      rw [schemaVal]
      simp only [h]
      rw [getCastValue_prim _ _ h]
      rw [instRepl_not_vres]
      intro c
      by_cases h1 : s = ""
      · simp [h1]
      · simp only [if_neg h1, castPrim]
        split_ifs <;> simp
    | res defs =>
      rw [schemaVal]
      simp only [h]
      rw [getCastValue_res _ _ h]
      simp only [instRepl]
      rw [SCHEMA, OgDefine_api, OgDefine_casts, constructBase_eq, Res_api_mk, Res_casts_mk,
        upsertList]
